import Mathlib

/-!
Verification development for the Ulanzi election display pipeline
(`ulanzi_election_display.py`).

The pure transformation pipeline is embedded shallowly:

* the raw JSON document is modelled by nested structures whose fields are
  all `Option`-valued, mirroring Python's `dict.get` with its defaults
  (an absent key is `none`; `get(k, d)` becomes `Option.getD`);
* percentages are modelled as rationals (`ℚ`), which captures the exact
  arithmetic of the comparisons, the division and `math.ceil` used by the
  renderer (Python floats at these magnitudes behave like exact
  rationals for every property proved here);
* Python exceptions are modelled by `Except` / `Option` results: the
  `IndexError` raised by `contest[0]` on an explicitly empty list, the
  `dateutil` parse failure, and the `ZeroDivisionError` in the bar-chart
  width computation;
* the external `dateutil.parser.parse` and
  `datetime.astimezone().strftime` calls are kept abstract as function
  parameters (`parseDate`, `fmtHM`) over an abstract timestamp type `δ`,
  since they belong to outside libraries, not to this repository;
  `datetime.datetime.now()` is passed in as the `now : δ` parameter.
-/

/-- Embeds the `PartyResult` dataclass (lines 24-28). -/
structure PartyResult where
  name : String
  percentage : ℚ
  color : String
deriving Repr, DecidableEq

/-- Embeds the `ProcessedElectionData` dataclass (lines 31-34), generic
over the timestamp type `δ` standing for `datetime.datetime`. -/
structure ProcessedElectionData (δ : Type) where
  timestamp : δ
  parties : List PartyResult
deriving Repr, DecidableEq

/-- Raw JSON object under `percent[i].value`: an optional `absolute`
field. -/
structure RawValue where
  absolute : Option ℚ
deriving Repr, DecidableEq

/-- Raw JSON element of a result's `percent` list: an optional `value`
object. -/
structure RawPercent where
  value : Option RawValue
deriving Repr, DecidableEq

/-- Raw JSON element of `results_overall.latest.results`. -/
structure RawResult where
  target : Option String
  target_id : Option String
  percent : Option (List RawPercent)
deriving Repr, DecidableEq

/-- Raw JSON element of the top-level `parties` catalog. -/
structure RawParty where
  id : Option String
  abbreviation : Option String
  color : Option String
deriving Repr, DecidableEq

/-- Raw JSON object `results_overall.latest`. -/
structure RawLatest where
  results : Option (List RawResult)
  status_date : Option String
deriving Repr, DecidableEq

/-- Raw JSON object `results_overall`. -/
structure RawResultsOverall where
  latest : Option RawLatest
deriving Repr, DecidableEq

/-- Raw JSON element of `election.contest`. -/
structure RawContest where
  results_overall : Option RawResultsOverall
deriving Repr, DecidableEq

/-- Raw JSON object `election`. -/
structure RawElection where
  contest : Option (List RawContest)
deriving Repr, DecidableEq

/-- Raw top-level JSON document handed to `process_election_data`. -/
structure RawDocument where
  election : Option RawElection
  parties : Option (List RawParty)
deriving Repr, DecidableEq

/-- Python exceptions that `process_election_data` can raise inside the
modelled fragment: the `IndexError` from `contest[0]` when the `contest`
key holds an explicitly empty list (line 57), and the `dateutil` parse
error on a malformed `status_date` string (line 63). -/
inductive ParseErr where
  | indexError
  | dateError (s : String)
deriving Repr, DecidableEq

/-- Embeds lines 56-58: `election = data.get("election", {})`,
`contest = election.get("contest", [{}])[0]`,
`latest = contest.get("results_overall", {}).get("latest", {})`.
The indexing `[0]` raises `IndexError` exactly when the document carries
an explicitly empty `contest` list (the default `[{}]` is non-empty). -/
def latestOf (data : RawDocument) : Except ParseErr RawLatest :=
  let election := data.election.getD { contest := none }
  let contestList := election.contest.getD [{ results_overall := none }]
  match contestList with
  | [] => .error .indexError
  | contest :: _ =>
    .ok (((contest.results_overall.getD { latest := none }).latest).getD
      { results := none, status_date := none })

/-- Embeds the body of the `for result in results` loop (lines 68-83):
`target` must equal `"parties"`, the `percent` list must be present and
non-empty (Python truthiness of `result.get("percent")`), and the
`target_id` must match some catalog entry's `id` (`next(...)` over the
catalog, where Python's `None == None` is `true`, matching `Option`
equality). The percentage is
`result.get("percent", [{}])[0].get("value", {}).get("absolute", 0)`. -/
def resultToParty (catalog : List RawParty) (result : RawResult) :
    Option PartyResult :=
  if result.target = some "parties" then
    let party_id := result.target_id
    let party := catalog.find? (fun p => p.id == party_id)
    match result.percent with
    | some (first :: _) =>
      match party with
      | some p =>
        some { name := p.abbreviation.getD ""
               percentage := (first.value.getD { absolute := none }).absolute.getD 0
               color := p.color.getD "000000" }
      | none => none
    | _ => none
  else none

/-- Embeds the whole extraction loop of lines 67-83: appends, in source
order, one `PartyResult` per accepted element of `results`. -/
def extractParties (catalog : List RawParty) (results : List RawResult) :
    List PartyResult :=
  results.filterMap (resultToParty catalog)

/-- Embeds `parties.sort(key=lambda x: x.percentage, reverse=True)`
(line 86): CPython's sort is stable, and `reverse=True` gives a stable
descending order, i.e. a stable merge sort under the relation
`b.percentage ≤ a.percentage`. -/
def sortParties (parties : List PartyResult) : List PartyResult :=
  parties.mergeSort (fun a b => decide (b.percentage ≤ a.percentage))

/-- Embeds `process_election_data` (lines 52-90). `parseDate` stands for
`dateutil.parser.parse` (returning `none` where the library would raise),
and `now` for the `datetime.datetime.now()` value stored into `timestamp`
at line 61 before the `status_date` check; the Python truthiness test
`if status_date:` on the string defaulted with `""` is the test
`status_date = ""` after `Option.getD ""`. -/
def process_election_data {δ : Type} (parseDate : String → Option δ)
    (now : δ) (data : RawDocument) :
    Except ParseErr (Option (ProcessedElectionData δ)) :=
  match latestOf data with
  | .error e => .error e
  | .ok latest =>
    let results := latest.results.getD []
    let status_date := latest.status_date.getD ""
    let timestamp := now
    if status_date = "" then
      .ok none
    else
      match parseDate status_date with
      | none => .error (.dateError status_date)
      | some ts =>
        let _ := timestamp
        let parties := extractParties (data.parties.getD []) results
        .ok (some { timestamp := ts, parties := sortParties parties })

/-- Rectangle-fill instruction: the Python dict
`\x7b"df": [x, y, w, h, color]\x7d` built at lines 107, 114-116 and
120-122. -/
structure Rect where
  x : ℤ
  y : ℤ
  w : ℤ
  h : ℤ
  color : String
deriving Repr, DecidableEq

/-- Embeds `max(party_data, key=lambda x: x.percentage).percentage`
(line 109): the maximum of the percentages of a non-empty list (on the
empty list Python would raise; the caller guards with the length check,
and here the value for `[]` is irrelevant). -/
def maxPercentage : List PartyResult → ℚ
  | [] => 0
  | p :: rest => (rest.map (fun r => r.percentage)).foldl max p.percentage

/-- Embeds the `for i, result in enumerate(party_data)` loop of lines
110-122: per party, one bar rectangle and one threshold-indicator
rectangle. The index argument is the running `enumerate` counter. -/
def barRects (display_width : ℤ) (max_percentage threshold : ℚ)
    (bar_height : ℕ) : ℕ → List PartyResult → List Rect
  | _, [] => []
  | i, result :: rest =>
    let bar_width : ℤ := ⌈(result.percentage / max_percentage) * (display_width : ℚ)⌉
    let top_left_x : ℤ := 0
    let top_left_y : ℤ := (i : ℤ) * (bar_height : ℤ)
    let indicator_color : String :=
      if result.percentage > threshold then "00FF00" else "FF0000"
    { x := top_left_x, y := top_left_y, w := bar_width, h := (bar_height : ℤ),
      color := result.color } ::
    { x := bar_width, y := top_left_y, w := 1, h := (bar_height : ℤ),
      color := indicator_color } ::
    barRects display_width max_percentage threshold bar_height (i + 1) rest

/-- Embeds `generate_bar_chart` (lines 93-124). In Python the division
`result.percentage / max_percentage` raises `ZeroDivisionError` when
`max_percentage` is `0` (rationals in Lean would silently give `0`, so
the exception is modelled by the explicit guard returning `none`; the
guard only matters on a non-empty list, exactly where the Python loop
body runs). -/
def generate_bar_chart (party_data : List PartyResult) (threshold : ℚ) :
    Option (List Rect) :=
  if party_data.length = 0 then some []
  else
    let display_width : ℤ := 20
    let display_height : ℕ := 8
    let bar_height : ℕ := display_height / party_data.length
    let max_percentage : ℚ := maxPercentage party_data
    if max_percentage = 0 then none
    else
      some ({ x := 0, y := 0, w := display_width, h := (display_height : ℤ),
              color := "000000" } ::
            barRects display_width max_percentage threshold bar_height 0 party_data)

/-- Colored text fragment: the Python dict `\x7b"t": ..., "c": ...\x7d`
built at lines 133 and 136. -/
structure TextFragment where
  t : String
  c : String
deriving Repr, DecidableEq

/-- Embeds `generate_text_message` (lines 127-139). `fmtHM` stands for
the external call `timestamp.astimezone().strftime("%H:%M")` (line 131):
conversion to the local display timezone followed by 24-hour `HH:MM`
formatting. The loop of lines 135-137 is the `foldl` over appends. -/
def generate_text_message {δ : Type} (fmtHM : δ → String)
    (election_data : ProcessedElectionData δ) : List TextFragment :=
  let start := fmtHM election_data.timestamp
  election_data.parties.foldl
    (fun acc party => acc ++ [{ t := party.name ++ " ", c := party.color }])
    [{ t := start ++ " ", c := "FFFFFF" }]

/-- The Ulanzi/Awtrix packet dict built at lines 150-154. -/
structure UlanziPacket where
  draw : List Rect
  text : List TextFragment
  textOffset : ℕ
deriving Repr, DecidableEq

/-- Embeds `generate_ulanzi_packet` (lines 142-156): renders the bar
chart at a threshold of `5`, renders the text message, and assembles
the packet dict with the fixed `textOffset` of `8`. A `none` result
models the `ZeroDivisionError` propagating out of `generate_bar_chart`;
the assembly step itself is a plain dict literal and adds no failure. -/
def generate_ulanzi_packet {δ : Type} (fmtHM : δ → String)
    (election_data : ProcessedElectionData δ) : Option UlanziPacket :=
  match generate_bar_chart election_data.parties 5 with
  | none => none
  | some bar_chart =>
    some { draw := bar_chart
           text := generate_text_message fmtHM election_data
           textOffset := 8 }

/-!
Concrete inputs used by witnesses and counterexamples.
-/

/-- Date parser used in witnesses: accepts exactly one string, standing
for a `dateutil`-parseable timestamp, with `42` as the parsed value. -/
def parseDate0 : String → Option ℕ :=
  fun s => if s = "2025-01-01T12:34:00+01:00" then some 42 else none

/-- A raw result entry for party id `spd` at 25 percent. -/
def witnessResult : RawResult :=
  { target := some "parties", target_id := some "spd",
    percent := some [{ value := some { absolute := some (25 : ℚ) } }] }

/-- The `results_overall.latest` object of the witness document. -/
def witnessLatest : RawLatest :=
  { results := some [witnessResult],
    status_date := some "2025-01-01T12:34:00+01:00" }

/-- The single contest of the witness document. -/
def witnessContest : RawContest :=
  { results_overall := some { latest := some witnessLatest } }

/-- The party catalog of the witness document. -/
def witnessCatalog : List RawParty :=
  [{ id := some "spd", abbreviation := some "SPD", color := some "FF0000" }]

/-- A well-formed raw document with one party at 25 percent and a
parseable status date. -/
def witnessDoc : RawDocument :=
  { election := some { contest := some [witnessContest] },
    parties := some witnessCatalog }

/-- The processed snapshot that `process_election_data` yields on
`witnessDoc`. -/
def witnessProcessed : ProcessedElectionData ℕ :=
  { timestamp := 42,
    parties := [{ name := "SPD", percentage := 25, color := "FF0000" }] }

/-- A raw document whose `contest` key holds an explicitly empty list
and which carries no `status_date` anywhere. -/
def emptyContestDoc : RawDocument :=
  { election := some { contest := some [] }, parties := none }

/-- The `results_overall.latest` object of `badDateDoc`: a status date
string the date parser rejects. -/
def badDateLatest : RawLatest :=
  { results := some [], status_date := some "not-a-date" }

/-- The single contest of `badDateDoc`. -/
def badDateContest : RawContest :=
  { results_overall := some { latest := some badDateLatest } }

/-- A raw document whose status date string is present but malformed. -/
def badDateDoc : RawDocument :=
  { election := some { contest := some [badDateContest] },
    parties := none }

/-- A single party at 50 percent, as in the specification's example. -/
def partyA : PartyResult :=
  { name := "A", percentage := 50, color := "AA0000" }

/-- A party with percentage zero. -/
def partyZero : PartyResult :=
  { name := "Z", percentage := 0, color := "BB0000" }

/-!
Helper lemmas shared by the claim theorems.
-/

/-- The descending-by-percentage relation used by the sort is transitive. -/
theorem partyLE_trans (a b c : PartyResult)
    (hab : decide (b.percentage ≤ a.percentage) = true)
    (hbc : decide (c.percentage ≤ b.percentage) = true) :
    decide (c.percentage ≤ a.percentage) = true := by
  simp only [decide_eq_true_eq] at *
  exact le_trans hbc hab

/-- The descending-by-percentage relation used by the sort is total. -/
theorem partyLE_total (a b : PartyResult) :
    (decide (b.percentage ≤ a.percentage) || decide (a.percentage ≤ b.percentage)) = true := by
  simp only [Bool.or_eq_true, decide_eq_true_eq]
  exact le_total _ _

/-- The sorted party list is pairwise descending in percentage. -/
theorem sortParties_sorted (l : List PartyResult) :
    (sortParties l).Pairwise (fun a b => b.percentage ≤ a.percentage) := by
  have h : (sortParties l).Pairwise
      (fun a b : PartyResult => decide (b.percentage ≤ a.percentage) = true) :=
    List.sorted_mergeSort partyLE_trans partyLE_total l
  exact h.imp (fun hab => of_decide_eq_true hab)

/-- Stability of the sort: filtering by any predicate on whose support the
sort relation always holds (in particular, equality of percentages)
commutes with sorting, i.e. those entries keep their original relative
order. -/
theorem sortParties_filter (p : PartyResult → Bool)
    (hp : ∀ a b, p a = true → p b = true → b.percentage ≤ a.percentage)
    (l : List PartyResult) :
    (sortParties l).filter p = l.filter p := by
  have hpair : (l.filter p).Pairwise
      (fun a b : PartyResult => decide (b.percentage ≤ a.percentage)) := by
    apply List.pairwise_of_forall_mem_list
    intro a ha b hb
    exact decide_eq_true (hp a b (List.of_mem_filter ha) (List.of_mem_filter hb))
  have hsub : List.Sublist (l.filter p)
      (l.mergeSort (fun a b => decide (b.percentage ≤ a.percentage))) :=
    List.sublist_mergeSort partyLE_trans partyLE_total hpair (List.filter_sublist l)
  have hidem : (l.filter p).filter p = l.filter p :=
    List.filter_eq_self.mpr (fun a ha => List.of_mem_filter ha)
  have h1 : List.Sublist (l.filter p) ((sortParties l).filter p) := by
    have := hsub.filter p
    rwa [hidem] at this
  have h2 : List.Perm ((sortParties l).filter p) (l.filter p) :=
    (List.mergeSort_perm l _).filter p
  exact (List.Sublist.eq_of_length h1 h2.length_eq.symm).symm

/-- Inversion of a successful parse: the returned timestamp comes from
`parseDate` applied to the source `status_date`, and the parties are the
extracted entries sorted. -/
theorem process_ok_some_inv {δ : Type} (parseDate : String → Option δ)
    (now : δ) (data : RawDocument) (d : ProcessedElectionData δ)
    (h : process_election_data parseDate now data = .ok (some d)) :
    ∃ latest, latestOf data = .ok latest ∧
      latest.status_date.getD "" ≠ "" ∧
      parseDate (latest.status_date.getD "") = some d.timestamp ∧
      d.parties = sortParties
        (extractParties (data.parties.getD []) (latest.results.getD [])) := by
  unfold process_election_data at h
  cases hl : latestOf data with
  | error e =>
    rw [hl] at h
    exact absurd h (by simp)
  | ok latest =>
    rw [hl] at h
    dsimp only at h
    by_cases hs : latest.status_date.getD "" = ""
    · rw [if_pos hs] at h
      exact absurd h (by simp)
    · rw [if_neg hs] at h
      cases hpd : parseDate (latest.status_date.getD "") with
      | none =>
        rw [hpd] at h
        exact absurd h (by simp)
      | some ts =>
        rw [hpd] at h
        simp only [Except.ok.injEq, Option.some.injEq] at h
        refine ⟨latest, rfl, hs, ?_, ?_⟩
        · rw [hpd, ← h]
        · rw [← h]

/-- Folding a function over a list of all-equal elements with `max`
returns that element. -/
theorem foldl_max_const : ∀ (xs : List ℚ) (x : ℚ), (∀ y ∈ xs, y = x) →
    xs.foldl max x = x
  | [], _, _ => rfl
  | a :: xs, x, h => by
    have ha : a = x := h a (List.mem_cons_self a xs)
    have hrest := foldl_max_const xs x (fun y hy => h y (List.mem_cons_of_mem _ hy))
    simp [List.foldl_cons, ha, max_self, hrest]

/-- When every percentage is zero, the Python `max` over the list is
zero. -/
theorem maxPercentage_eq_zero {l : List PartyResult}
    (h : ∀ p ∈ l, p.percentage = 0) : maxPercentage l = 0 := by
  cases l with
  | nil => rfl
  | cons p rest =>
    have hp : p.percentage = 0 := h p (List.mem_cons_self p rest)
    simp only [maxPercentage]
    rw [hp]
    apply foldl_max_const
    intro y hy
    simp only [List.mem_map] at hy
    obtain ⟨q, hq, rfl⟩ := hy
    exact h q (List.mem_cons_of_mem _ hq)

/-- Position of the two rectangles that the loop emits for the party at
index `j`, relative to the running `enumerate` counter `start`: the bar
at even positions, the indicator right after it. -/
theorem barRects_getElem (dw : ℤ) (m t : ℚ) (bh : ℕ) :
    ∀ (l : List PartyResult) (start j : ℕ) (hj : j < l.length),
    (barRects dw m t bh start l)[2 * j]? =
      some { x := 0, y := ((start + j : ℕ) : ℤ) * (bh : ℤ),
             w := ⌈((l.get ⟨j, hj⟩).percentage / m) * (dw : ℚ)⌉, h := (bh : ℤ),
             color := (l.get ⟨j, hj⟩).color } ∧
    (barRects dw m t bh start l)[2 * j + 1]? =
      some { x := ⌈((l.get ⟨j, hj⟩).percentage / m) * (dw : ℚ)⌉,
             y := ((start + j : ℕ) : ℤ) * (bh : ℤ), w := 1, h := (bh : ℤ),
             color := if (l.get ⟨j, hj⟩).percentage > t then "00FF00" else "FF0000" }
  | [], _, j, hj => absurd hj (by simp)
  | a :: rest, start, 0, hj => by
    simp [barRects]
  | a :: rest, start, j + 1, hj => by
    have hj' : j < rest.length := by simpa using hj
    have ih := barRects_getElem dw m t bh rest (start + 1) j hj'
    have e1 : 2 * (j + 1) = 2 * j + 1 + 1 := by omega
    have e2 : (start + 1) + j = start + (j + 1) := by omega
    simp only [barRects, e1, List.getElem?_cons_succ, List.get_cons_succ]
    rw [← e2]
    exact ih

/-- Appending one element per list entry inside a fold is a `map`. -/
theorem foldl_append_eq_map {α β : Type} (f : α → β) :
    ∀ (l : List α) (acc : List β),
    l.foldl (fun acc x => acc ++ [f x]) acc = acc ++ l.map f
  | [], acc => by simp
  | a :: l, acc => by
    simp only [List.foldl_cons, List.map_cons]
    rw [foldl_append_eq_map f l (acc ++ [f a])]
    simp

/-- Shape of a successful bar-chart render: the black background first,
then the per-party rectangles. -/
theorem generate_bar_chart_eq (party_data : List PartyResult) (threshold : ℚ)
    (hne : party_data ≠ []) (hmax : maxPercentage party_data ≠ 0) :
    generate_bar_chart party_data threshold =
      some ({ x := 0, y := 0, w := 20, h := 8, color := "000000" } ::
        barRects 20 (maxPercentage party_data) threshold
          (8 / party_data.length) 0 party_data) := by
  unfold generate_bar_chart
  rw [if_neg (by simpa [List.length_eq_zero] using hne)]
  dsimp only
  rw [if_neg hmax]
  norm_num

/-- Claim C6: on the empty party sequence the renderer emits no
rectangles at all, not even the background clear, for any threshold. -/
theorem claim6_empty_input (t : ℚ) : generate_bar_chart [] t = some [] := rfl

/-- Claim C9: on any non-empty input in which every party's percentage
is zero, the bar-width computation divides by the zero maximum and the
renderer fails (Python `ZeroDivisionError`, modelled as `none`). -/
theorem claim9_zero_max (party_data : List PartyResult) (threshold : ℚ)
    (hne : party_data ≠ []) (h0 : ∀ p ∈ party_data, p.percentage = 0) :
    generate_bar_chart party_data threshold = none := by
  unfold generate_bar_chart
  rw [if_neg (by simpa [List.length_eq_zero] using hne)]
  dsimp only
  rw [if_pos (maxPercentage_eq_zero h0)]

/-- Witness for C9 at a concrete all-zero input. -/
theorem claim9_zero_max_witness : generate_bar_chart [partyZero] 3 = none :=
  claim9_zero_max [partyZero] 3 (by decide) (by decide)

/-- Counterexample to C4 as stated: a non-empty input (all percentages
zero) on which the renderer raises instead of emitting the background
and bar rectangles. -/
theorem claim4_counterexample : generate_bar_chart [partyZero] 5 = none := by decide

/-- Claim C4 (amended with the non-zero maximum proviso): on success the
first rectangle is the black 20-by-8 background, and the bar of the
party at index `i` sits at the top-left of its band with height
`floor(8 / n)` and width `ceil(percentage / max * 20)`, in the party's
color. -/
theorem claim4_bar_layout (party_data : List PartyResult) (threshold : ℚ)
    (hne : party_data ≠ []) (hmax : maxPercentage party_data ≠ 0) :
    ∃ rects, generate_bar_chart party_data threshold = some rects ∧
      rects.head? = some { x := 0, y := 0, w := 20, h := 8, color := "000000" } ∧
      ∀ (i : ℕ) (hi : i < party_data.length),
        rects[1 + 2 * i]? = some
          { x := 0, y := (i : ℤ) * ((8 / party_data.length : ℕ) : ℤ),
            w := ⌈((party_data.get ⟨i, hi⟩).percentage / maxPercentage party_data) * (20 : ℚ)⌉,
            h := ((8 / party_data.length : ℕ) : ℤ),
            color := (party_data.get ⟨i, hi⟩).color } := by
  refine ⟨_, generate_bar_chart_eq party_data threshold hne hmax, rfl, ?_⟩
  intro i hi
  have h := (barRects_getElem 20 (maxPercentage party_data) threshold
    (8 / party_data.length) party_data 0 i hi).1
  rw [Nat.add_comm 1 (2 * i), List.getElem?_cons_succ, h]
  norm_num

/-- Witness for the amended C4 at the specification's one-party example. -/
theorem claim4_bar_layout_witness :
    ∃ rects, generate_bar_chart [partyA] 5 = some rects ∧
      rects.head? = some { x := 0, y := 0, w := 20, h := 8, color := "000000" } ∧
      ∀ (i : ℕ) (hi : i < [partyA].length),
        rects[1 + 2 * i]? = some
          { x := 0, y := (i : ℤ) * ((8 / [partyA].length : ℕ) : ℤ),
            w := ⌈(([partyA].get ⟨i, hi⟩).percentage / maxPercentage [partyA]) * (20 : ℚ)⌉,
            h := ((8 / [partyA].length : ℕ) : ℤ),
            color := ([partyA].get ⟨i, hi⟩).color } :=
  claim4_bar_layout [partyA] 5 (by decide) (by decide)

/-- Counterexample to C5 as stated: a non-empty input (all percentages
zero) on which the renderer raises instead of emitting any indicator. -/
theorem claim5_counterexample : generate_bar_chart [partyZero, partyZero] 7 = none := by
  decide

/-- Claim C5 (amended with the non-zero maximum proviso): on success,
immediately after each party's bar the renderer emits a 1-unit-wide
indicator at the bar's right edge in the same band, green if the
percentage strictly exceeds the threshold and red otherwise, for every
party index. -/
theorem claim5_indicators (party_data : List PartyResult) (threshold : ℚ)
    (hne : party_data ≠ []) (hmax : maxPercentage party_data ≠ 0) :
    ∃ rects, generate_bar_chart party_data threshold = some rects ∧
      ∀ (i : ℕ) (hi : i < party_data.length),
        rects[2 + 2 * i]? = some
          { x := ⌈((party_data.get ⟨i, hi⟩).percentage / maxPercentage party_data) * (20 : ℚ)⌉,
            y := (i : ℤ) * ((8 / party_data.length : ℕ) : ℤ), w := 1,
            h := ((8 / party_data.length : ℕ) : ℤ),
            color := if (party_data.get ⟨i, hi⟩).percentage > threshold
              then "00FF00" else "FF0000" } := by
  refine ⟨_, generate_bar_chart_eq party_data threshold hne hmax, ?_⟩
  intro i hi
  have h := (barRects_getElem 20 (maxPercentage party_data) threshold
    (8 / party_data.length) party_data 0 i hi).2
  rw [show 2 + 2 * i = 2 * i + 1 + 1 by omega, List.getElem?_cons_succ, h]
  norm_num

/-- Witness for the amended C5 at a concrete one-party input: the bar
fills the full width and the indicator still appears at its right edge. -/
theorem claim5_indicators_witness :
    ∃ rects, generate_bar_chart [partyA] 5 = some rects ∧
      ∀ (i : ℕ) (hi : i < [partyA].length),
        rects[2 + 2 * i]? = some
          { x := ⌈(([partyA].get ⟨i, hi⟩).percentage / maxPercentage [partyA]) * (20 : ℚ)⌉,
            y := (i : ℤ) * ((8 / [partyA].length : ℕ) : ℤ), w := 1,
            h := ((8 / [partyA].length : ℕ) : ℤ),
            color := if ([partyA].get ⟨i, hi⟩).percentage > 5
              then "00FF00" else "FF0000" } :=
  claim5_indicators [partyA] 5 (by decide) (by decide)

/-- Claim C7: the text layer starts with the locally formatted `HH:MM`
timestamp fragment trailed by one space in white, followed by exactly
one fragment per party in sorted order, each the party's name trailed by
one space in the party's color. -/
theorem claim7_text_layout {δ : Type} (fmtHM : δ → String)
    (ed : ProcessedElectionData δ) :
    generate_text_message fmtHM ed =
      { t := fmtHM ed.timestamp ++ " ", c := "FFFFFF" } ::
        ed.parties.map (fun party => { t := party.name ++ " ", c := party.color }) := by
  have h := foldl_append_eq_map
    (fun party : PartyResult => ({ t := party.name ++ " ", c := party.color } : TextFragment))
    ed.parties [{ t := fmtHM ed.timestamp ++ " ", c := "FFFFFF" }]
  simpa [generate_text_message] using h

/-- Claim C8: the assembled packet is exactly the rendered bar
rectangles under `draw`, the rendered text fragments under `text`, and
the constant `textOffset` of `8`; the assembly step adds no failure of
its own (the packet is produced whenever the bar chart is). -/
theorem claim8_packet_assembly {δ : Type} (fmtHM : δ → String)
    (ed : ProcessedElectionData δ) :
    generate_ulanzi_packet fmtHM ed =
      (generate_bar_chart ed.parties 5).map (fun bar_chart =>
        { draw := bar_chart, text := generate_text_message fmtHM ed,
          textOffset := 8 }) := by
  unfold generate_ulanzi_packet
  cases generate_bar_chart ed.parties 5 <;> rfl

/-- Claim C3: a result element yields a `PartyResult` exactly when its
target is `"parties"`, its `percent` list is present and non-empty, and
its `target_id` matches the id of some catalog entry; an unmatched id is
silently skipped, so any results processed against an empty catalog
yield the empty list; and the included percentage is the first percent
element's nested `value.absolute`, defaulting to `0` when absent. -/
theorem claim3_result_selection (catalog : List RawParty) (r : RawResult) :
    ((resultToParty catalog r).isSome ↔
      (r.target = some "parties" ∧
        (∃ first rest, r.percent = some (first :: rest)) ∧
        ∃ p ∈ catalog, p.id = r.target_id)) ∧
    (∀ results : List RawResult, extractParties [] results = []) ∧
    (∀ (first : RawPercent) (rest : List RawPercent) (pr : PartyResult),
      r.percent = some (first :: rest) → resultToParty catalog r = some pr →
      pr.percentage = (first.value.getD { absolute := none }).absolute.getD 0) := by
  refine ⟨?_, ?_, ?_⟩
  · unfold resultToParty
    by_cases ht : r.target = some "parties"
    · rw [if_pos ht]
      dsimp only
      cases hp : r.percent with
      | none => simp [hp]
      | some ps =>
        cases ps with
        | nil => simp [hp]
        | cons first rest' =>
          cases hf : catalog.find? (fun p => p.id == r.target_id) with
          | none =>
            have hno := List.find?_eq_none.mp hf
            simp only [hf, Option.isSome_none, Bool.false_eq_true, false_iff]
            rintro ⟨-, -, p, hmem, hid⟩
            exact hno p hmem (by simp [hid])
          | some p =>
            have hmem := List.mem_of_find?_eq_some hf
            have hid := List.find?_some hf
            simp only [hf, Option.isSome_some, true_iff]
            exact ⟨ht, ⟨first, rest', rfl⟩, p, hmem, by simpa using hid⟩
    · rw [if_neg ht]
      simp [ht]
  · intro results
    rw [extractParties, List.filterMap_eq_nil_iff]
    intro r' _
    unfold resultToParty
    by_cases ht : r'.target = some "parties"
    · rw [if_pos ht]
      dsimp only
      cases r'.percent with
      | none => rfl
      | some ps =>
        cases ps with
        | nil => rfl
        | cons a l => simp [List.find?]
    · rw [if_neg ht]
  · intro first rest pr hp h2
    unfold resultToParty at h2
    by_cases ht : r.target = some "parties"
    · rw [if_pos ht] at h2
      dsimp only at h2
      rw [hp] at h2
      cases hf : catalog.find? (fun p => p.id == r.target_id) with
      | none => rw [hf] at h2; cases h2
      | some p =>
        rw [hf] at h2
        injection h2 with h3
        rw [← h3]
    · rw [if_neg ht] at h2
      cases h2

/-- Witness for C3: the concrete witness result is accepted and its
percentage is read from the first percent entry's `value.absolute`. -/
theorem claim3_witness :
    ({ name := "SPD", percentage := 25, color := "FF0000" } : PartyResult).percentage =
      ((({ value := some { absolute := some (25 : ℚ) } } : RawPercent).value.getD
        { absolute := none }).absolute.getD 0) :=
  (claim3_result_selection witnessCatalog witnessResult).2.2
    { value := some { absolute := some (25 : ℚ) } } []
    { name := "SPD", percentage := 25, color := "FF0000" } rfl (by decide)

/-- Counterexample to C1 as stated: on a raw document whose `contest`
key holds an explicitly empty list the `status_date` field is absent,
yet the parser raises `IndexError` at `contest[0]` instead of returning
the no-data signal. -/
theorem claim1_counterexample :
    process_election_data (fun _ => (none : Option ℕ)) 0 emptyContestDoc =
      .error .indexError := rfl

/-- Claim C1 (amended: restricted to documents on which the `contest[0]`
indexing itself does not raise, i.e. `latestOf` succeeds): the parser
returns the no-data signal exactly when `status_date` is absent or
empty, and when a non-empty `status_date` string is present but the date
parser rejects it, the parser propagates that failure instead of
substituting a timestamp. -/
theorem claim1_status_date {δ : Type} (parseDate : String → Option δ)
    (now : δ) (data : RawDocument) (latest : RawLatest)
    (hl : latestOf data = .ok latest) :
    ((process_election_data parseDate now data = .ok none) ↔
      (latest.status_date = none ∨ latest.status_date = some "")) ∧
    (∀ s, latest.status_date = some s → s ≠ "" → parseDate s = none →
      process_election_data parseDate now data = .error (.dateError s)) := by
  constructor
  · unfold process_election_data
    rw [hl]
    dsimp only
    by_cases hs : latest.status_date.getD "" = ""
    · rw [if_pos hs]
      constructor
      · intro _
        cases hsd : latest.status_date with
        | none => exact Or.inl rfl
        | some s =>
          right
          rw [hsd, Option.getD_some] at hs
          rw [hs]
      · intro _
        rfl
    · rw [if_neg hs]
      constructor
      · intro h
        cases hpd : parseDate (latest.status_date.getD "") with
        | none =>
          rw [hpd] at h
          cases h
        | some ts =>
          rw [hpd] at h
          exact absurd h (by simp)
      · intro hd
        exfalso
        apply hs
        cases hd with
        | inl h0 => rw [h0]; rfl
        | inr h0 => rw [h0]; rfl
  · intro s hsd hne hpd
    unfold process_election_data
    rw [hl]
    dsimp only
    rw [hsd, Option.getD_some, if_neg hne, hpd]

/-- Witness for the amended C1: a present but malformed status date
string makes the parser fail with a date error. -/
theorem claim1_status_date_witness :
    process_election_data (fun _ => (none : Option ℕ)) 0 badDateDoc =
      .error (.dateError "not-a-date") :=
  (claim1_status_date (fun _ => (none : Option ℕ)) 0 badDateDoc badDateLatest
    rfl).2 "not-a-date" rfl (by decide) rfl

/-- Evaluation of the parser on the concrete witness document. -/
theorem process_witnessDoc_eval :
    process_election_data parseDate0 7 witnessDoc = .ok (some witnessProcessed) := by
  simp [process_election_data, latestOf, witnessDoc, witnessContest, witnessLatest,
    witnessResult, witnessCatalog, witnessProcessed, extractParties, resultToParty,
    parseDate0, sortParties]

/-- Claim C2: whenever the parser succeeds, the returned parties are
pairwise descending in percentage, and the entries at any fixed
percentage appear in exactly the order in which the extraction loop
encountered them in the source results list (stability). -/
theorem claim2_sorted_stable {δ : Type} (parseDate : String → Option δ)
    (now : δ) (data : RawDocument) (latest : RawLatest)
    (d : ProcessedElectionData δ) (q : ℚ)
    (hl : latestOf data = .ok latest)
    (h : process_election_data parseDate now data = .ok (some d)) :
    d.parties.Pairwise (fun a b => b.percentage ≤ a.percentage) ∧
    d.parties.filter (fun p => decide (p.percentage = q)) =
      (extractParties (data.parties.getD []) (latest.results.getD [])).filter
        (fun p => decide (p.percentage = q)) := by
  obtain ⟨latest', hl', -, -, hparties⟩ := process_ok_some_inv parseDate now data d h
  rw [hl] at hl'
  injection hl' with e
  subst e
  constructor
  · rw [hparties]
    exact sortParties_sorted _
  · rw [hparties]
    exact sortParties_filter _
      (fun a b ha hb => by
        simp only [decide_eq_true_eq] at ha hb
        rw [ha, hb]) _

/-- Witness for C2 at the concrete witness document. -/
theorem claim2_sorted_stable_witness :
    witnessProcessed.parties.Pairwise (fun a b => b.percentage ≤ a.percentage) ∧
    witnessProcessed.parties.filter (fun p => decide (p.percentage = (25 : ℚ))) =
      (extractParties (witnessDoc.parties.getD [])
        (witnessLatest.results.getD [])).filter
        (fun p => decide (p.percentage = (25 : ℚ))) :=
  claim2_sorted_stable parseDate0 7 witnessDoc witnessLatest witnessProcessed 25
    rfl process_witnessDoc_eval

/-- Claim C10: the parser's output never depends on the wall-clock value
read at line 61, and whenever a snapshot is returned its timestamp is
exactly the date parser's output on the source `status_date` string. -/
theorem claim10_timestamp_source {δ : Type} (parseDate : String → Option δ)
    (now now' : δ) (data : RawDocument) :
    process_election_data parseDate now data =
      process_election_data parseDate now' data ∧
    (∀ (d : ProcessedElectionData δ) (latest : RawLatest),
      process_election_data parseDate now data = .ok (some d) →
      latestOf data = .ok latest →
      parseDate (latest.status_date.getD "") = some d.timestamp) := by
  constructor
  · rfl
  · intro d latest h hl
    obtain ⟨latest', hl', -, hpd, -⟩ := process_ok_some_inv parseDate now data d h
    rw [hl] at hl'
    injection hl' with e
    subst e
    exact hpd

/-- Witness for C10 at the concrete witness document: the returned
timestamp is the parsed status date. -/
theorem claim10_timestamp_source_witness :
    parseDate0 (witnessLatest.status_date.getD "") = some witnessProcessed.timestamp :=
  (claim10_timestamp_source parseDate0 7 8 witnessDoc).2 witnessProcessed
    witnessLatest process_witnessDoc_eval rfl
